import Mathlib

/-!
Verification of the loan amortization schedule generator
(`calculate_amortization_table` in `fin/amortization_table.py`).

The Python source works on machine floats; this development embeds the
same arithmetic over `ℚ` (exact currency arithmetic), with Python's
`round(x, 2)` modelled as rounding `100 * x` to the nearest integer and
dividing by `100`.  The `while balance > 0` loop is embedded as a
fuel-indexed recursion returning `none` when the fuel runs out, so that
termination is a provable statement rather than an assumption; a call
"returns normally" exactly when the embedding returns `some (.ok _)`.
-/

namespace Sierra

/-- Python's `round(x, 2)`: round to 2 decimal digits (currency cents). -/
def round2 (x : ℚ) : ℚ := (round (x * 100) : ℚ) / 100

/-- One row of the amortization table, with the columns
`['Month', 'Payment', 'Principal', 'Interests', 'Balance']`. -/
structure Row where
  month : ℕ
  payment : ℚ
  principal : ℚ
  interests : ℚ
  balance : ℚ
  deriving Repr, DecidableEq

/-- The two `ValueError`s raised by `calculate_amortization_table`:
the input-validation error carries its (fixed) message, and the
payment-too-low error carries the amount `1 + principal * -1` that the
f-string formats with `:.2f`, already rounded to 2 decimals as the
format specifier does. -/
inductive AmortError where
  | invalidInput (msg : String)
  | paymentTooLow (raiseBy : ℚ)
  deriving Repr, DecidableEq

/-- The mutable locals of the schedule loop: the running balance, the
month counter, the accumulated table rows and the two running totals. -/
structure AmortState where
  balance : ℚ
  month : ℕ
  rows : List Row
  total_interests : ℚ
  total_principal : ℚ
  deriving Repr, DecidableEq

/-- `set_values`: append the row
`[month, round(payment, 2), round(principal, 2), round(interests, 2), round(balance, 2)]`
to the table.  (In the source the row is keyed by `month`, which is
recorded as the first column; successive calls use successive months, so
the table is an append-only list.) -/
def set_values (table : List Row) (month_value : ℕ)
    (payment_value interests_value principal_value balance_value : ℚ) : List Row :=
  table ++ [{ month := month_value
              payment := round2 payment_value
              principal := round2 principal_value
              interests := round2 interests_value
              balance := round2 balance_value }]

/-- The `while balance > 0` loop of `calculate_amortization_table`,
with `monthly_interest_rate` already derived.  `fuel` bounds the number
of iterations: `none` means the fuel was exhausted before the loop
finished (the Python loop would still be running), `some (.error e)`
means the loop raised, and `some (.ok st)` means it fell through (via
`break` or the loop condition turning false) with final locals `st`. -/
def amortLoop (payment monthly_interest_rate : ℚ) :
    ℕ → AmortState → Option (Except AmortError AmortState)
  | 0, st => if st.balance > 0 then none else some (.ok st)
  | fuel + 1, st =>
    if st.balance > 0 then
      if payment - monthly_interest_rate * st.balance ≤ 0 then
        some (.error (.paymentTooLow
          (round2 (1 + (payment - monthly_interest_rate * st.balance) * -1))))
      else if st.balance - (payment - monthly_interest_rate * st.balance) ≤ 0 then
        some (.ok { balance := st.balance
                    month := st.month
                    rows := set_values st.rows st.month
                      (st.balance + monthly_interest_rate * st.balance)
                      (monthly_interest_rate * st.balance) st.balance 0
                    total_interests := st.total_interests + monthly_interest_rate * st.balance
                    total_principal := st.total_principal + st.balance })
      else
        amortLoop payment monthly_interest_rate fuel
          { balance := st.balance - (payment - monthly_interest_rate * st.balance)
            month := st.month + 1
            rows := set_values st.rows st.month payment (monthly_interest_rate * st.balance)
                      (payment - monthly_interest_rate * st.balance)
                      (st.balance - (payment - monthly_interest_rate * st.balance))
            total_interests := st.total_interests + monthly_interest_rate * st.balance
            total_principal := st.total_principal + (payment - monthly_interest_rate * st.balance) }
    else some (.ok st)

/-- The tuple returned by `calculate_amortization_table`:
`(total_interests, total_principal, total_payment, table, months)`. -/
structure AmortResult where
  total_interests : ℚ
  total_principal : ℚ
  total_payment : ℚ
  table : List Row
  months : ℕ
  deriving Repr, DecidableEq

/-- `calculate_amortization_table(payment, annual_rate, loan_amount, term)`.
The extra `fuel` argument bounds the iterations of the internal loop
(`none` = the Python call would still be looping); `some (.error e)` is
a raised `ValueError` and `some (.ok r)` a normal return. -/
def calculate_amortization_table (payment annual_rate loan_amount : ℚ) (term : ℤ)
    (fuel : ℕ) : Option (Except AmortError AmortResult) :=
  if payment ≤ 0 ∨ annual_rate < 0 ∨ loan_amount ≤ 0 ∨ term ≤ 0 then
    some (.error (.invalidInput "All input values must be positive and greater than zero."))
  else
    match amortLoop payment (annual_rate / 12) fuel
        { balance := loan_amount, month := 1, rows := [],
          total_interests := 0, total_principal := 0 } with
    | none => none
    | some (.error e) => some (.error e)
    | some (.ok st) =>
        some (.ok { total_interests := round2 st.total_interests
                    total_principal := round2 st.total_principal
                    total_payment := round2 (st.total_interests + st.total_principal)
                    table := st.rows
                    months := st.month })

/-- Project a normal return out of an outcome. -/
def okResult (o : Option (Except AmortError AmortResult)) : Option AmortResult :=
  match o with
  | some (.ok r) => some r
  | _ => none

/-- The `Balance` column of a returned table. -/
def recordedBalances (t : List Row) : List ℚ := t.map Row.balance

/-- The spec's "strictly decreasing" property of the `Balance` column. -/
def strictlyDecreasing (l : List ℚ) : Prop := List.Chain' (· > ·) l

instance (l : List ℚ) : Decidable (strictlyDecreasing l) := by
  unfold strictlyDecreasing; infer_instance

/-! ### Basic facts about 2-decimal rounding -/

theorem round2_zero : round2 0 = 0 := by
  simp [round2]

theorem round2_abs_sub (x : ℚ) : |round2 x - x| ≤ 1 / 200 := by
  have h := abs_sub_round (x * 100)
  rw [abs_sub_comm] at h
  have : round2 x - x = ((round (x * 100) : ℚ) - x * 100) / 100 := by
    rw [round2]; ring
  rw [this, abs_div]
  rw [abs_of_nonneg (by norm_num : (0:ℚ) ≤ 100)]
  linarith

theorem round2_mono {x y : ℚ} (h : x ≤ y) : round2 x ≤ round2 y := by
  unfold round2
  have hr : round (x * 100) ≤ round (y * 100) := by
    rw [round_eq, round_eq]
    exact Int.floor_mono (by linarith)
  have : ((round (x * 100) : ℤ) : ℚ) ≤ ((round (y * 100) : ℤ) : ℚ) := by
    exact_mod_cast hr
  linarith

theorem round2_nonneg {x : ℚ} (h : 0 ≤ x) : 0 ≤ round2 x := by
  have := round2_mono h
  rwa [round2_zero] at this

theorem round2_idem (x : ℚ) : round2 (round2 x) = round2 x := by
  unfold round2
  rw [div_mul_cancel₀ _ (by norm_num : (100:ℚ) ≠ 0), round_intCast]

/-! ### Step lemmas for the schedule loop -/

theorem amortLoop_exit (payment r : ℚ) (fuel : ℕ) (st : AmortState)
    (h : ¬ st.balance > 0) : amortLoop payment r fuel st = some (.ok st) := by
  cases fuel <;> simp [amortLoop, h]

theorem amortLoop_tooLow (payment r : ℚ) (fuel : ℕ) (st : AmortState)
    (h : st.balance > 0) (h1 : payment - r * st.balance ≤ 0) :
    amortLoop payment r (fuel + 1) st =
      some (.error (.paymentTooLow (round2 (1 + (payment - r * st.balance) * -1)))) := by
  simp [amortLoop, h, h1]

theorem amortLoop_final (payment r : ℚ) (fuel : ℕ) (st : AmortState)
    (h : st.balance > 0) (h1 : ¬ payment - r * st.balance ≤ 0)
    (h2 : st.balance - (payment - r * st.balance) ≤ 0) :
    amortLoop payment r (fuel + 1) st =
      some (.ok { balance := st.balance
                  month := st.month
                  rows := set_values st.rows st.month (st.balance + r * st.balance)
                            (r * st.balance) st.balance 0
                  total_interests := st.total_interests + r * st.balance
                  total_principal := st.total_principal + st.balance }) := by
  simp [amortLoop, h, h1, h2]

theorem amortLoop_continue (payment r : ℚ) (fuel : ℕ) (st : AmortState)
    (h : st.balance > 0) (h1 : ¬ payment - r * st.balance ≤ 0)
    (h2 : ¬ st.balance - (payment - r * st.balance) ≤ 0) :
    amortLoop payment r (fuel + 1) st =
      amortLoop payment r fuel
        { balance := st.balance - (payment - r * st.balance)
          month := st.month + 1
          rows := set_values st.rows st.month payment (r * st.balance)
                    (payment - r * st.balance) (st.balance - (payment - r * st.balance))
          total_interests := st.total_interests + r * st.balance
          total_principal := st.total_principal + (payment - r * st.balance) } := by
  simp [amortLoop, h, h1, h2]

/-! ### Loop invariants -/

/-- The running total of principal telescopes: on every normal exit of the
loop from a state with positive balance, the final `total_principal` is the
entry `total_principal` plus the entry balance (each ordinary row moves
`principal` from the balance into the total, and the final row moves the
whole remaining balance). -/
theorem amortLoop_total_principal (payment r : ℚ) :
    ∀ (fuel : ℕ) (st st' : AmortState), 0 < st.balance →
      amortLoop payment r fuel st = some (.ok st') →
      st'.total_principal = st.total_principal + st.balance := by
  intro fuel
  induction fuel with
  | zero =>
    intro st st' hbal heq
    simp [amortLoop, hbal] at heq
  | succ n ih =>
    intro st st' hbal heq
    by_cases h1 : payment - r * st.balance ≤ 0
    · rw [amortLoop_tooLow _ _ _ _ hbal h1] at heq
      simp at heq
    · by_cases h2 : st.balance - (payment - r * st.balance) ≤ 0
      · rw [amortLoop_final _ _ _ _ hbal h1 h2] at heq
        simp only [Option.some.injEq, Except.ok.injEq] at heq
        rw [← heq]
      · rw [amortLoop_continue _ _ _ _ hbal h1 h2] at heq
        have hbal' : (0:ℚ) < st.balance - (payment - r * st.balance) := by
          push_neg at h2; exact h2
        have h3 := ih _ _ hbal' heq
        simp only at h3
        rw [h3]; ring

/-- The loop never raises the input-validation error: that error is raised
only by the validation that precedes the loop. -/
theorem amortLoop_no_invalidInput (payment r : ℚ) :
    ∀ (fuel : ℕ) (st : AmortState) (m : String),
      amortLoop payment r fuel st ≠ some (.error (.invalidInput m)) := by
  intro fuel
  induction fuel with
  | zero =>
    intro st m heq
    by_cases hbal : st.balance > 0
    · simp [amortLoop, hbal] at heq
    · rw [amortLoop_exit _ _ _ _ hbal] at heq
      simp at heq
  | succ n ih =>
    intro st m heq
    by_cases hbal : st.balance > 0
    · by_cases h1 : payment - r * st.balance ≤ 0
      · rw [amortLoop_tooLow _ _ _ _ hbal h1] at heq
        simp at heq
      · by_cases h2 : st.balance - (payment - r * st.balance) ≤ 0
        · rw [amortLoop_final _ _ _ _ hbal h1 h2] at heq
          simp at heq
        · rw [amortLoop_continue _ _ _ _ hbal h1 h2] at heq
          exact ih _ _ heq
    · rw [amortLoop_exit _ _ _ _ hbal] at heq
      simp at heq

/-- Destructuring a normal return of `calculate_amortization_table`: the
validation must have passed, and the loop must have exited normally with
some final locals `st'` from which the result tuple is assembled. -/
theorem calculate_ok_elim (payment annual_rate loan_amount : ℚ) (term : ℤ) (fuel : ℕ)
    (res : AmortResult)
    (h : calculate_amortization_table payment annual_rate loan_amount term fuel =
      some (.ok res)) :
    ¬ (payment ≤ 0 ∨ annual_rate < 0 ∨ loan_amount ≤ 0 ∨ term ≤ 0) ∧
    ∃ st', amortLoop payment (annual_rate / 12) fuel
        { balance := loan_amount, month := 1, rows := [],
          total_interests := 0, total_principal := 0 } = some (.ok st') ∧
      res = { total_interests := round2 st'.total_interests
              total_principal := round2 st'.total_principal
              total_payment := round2 (st'.total_interests + st'.total_principal)
              table := st'.rows
              months := st'.month } := by
  by_cases hv : payment ≤ 0 ∨ annual_rate < 0 ∨ loan_amount ≤ 0 ∨ term ≤ 0
  · simp [calculate_amortization_table, hv] at h
  · refine ⟨hv, ?_⟩
    rw [calculate_amortization_table, if_neg hv] at h
    cases heq : amortLoop payment (annual_rate / 12) fuel
        { balance := loan_amount, month := 1, rows := [],
          total_interests := 0, total_principal := 0 } with
    | none => rw [heq] at h; simp at h
    | some e =>
      cases e with
      | error e => rw [heq] at h; simp at h
      | ok st' =>
        rw [heq] at h
        simp only [Option.some.injEq, Except.ok.injEq] at h
        exact ⟨st', rfl, h.symm⟩

/-- C1: For every valid input on which `calculate_amortization_table`
returns normally, the returned `total_principal` equals the original loan
principal within 0.01 currency units: the unrounded per-row principal
portions (the final row's being the remaining balance) telescope exactly
to `loan_amount`, and the single end rounding moves the total by at most
half a cent. -/
theorem C1_total_principal_within_cent (payment annual_rate loan_amount : ℚ) (term : ℤ)
    (fuel : ℕ) (res : AmortResult)
    (h : calculate_amortization_table payment annual_rate loan_amount term fuel =
      some (.ok res)) :
    |res.total_principal - loan_amount| ≤ 1 / 100 := by
  obtain ⟨hv, st', hloop, hres⟩ := calculate_ok_elim _ _ _ _ _ _ h
  push_neg at hv
  have hl : 0 < loan_amount := hv.2.2.1
  have htot := amortLoop_total_principal payment (annual_rate / 12) fuel _ st' hl hloop
  simp only at htot
  rw [hres]
  simp only
  rw [htot, zero_add]
  calc |round2 loan_amount - loan_amount| ≤ 1/200 := round2_abs_sub loan_amount
    _ ≤ 1/100 := by norm_num

/-- The result of the concrete run
`calculate_amortization_table(60, 0, 100, 1)`: two months, a first row
`(1, 60, 60, 0, 40)` and a final row `(2, 40, 40, 0, 0)`. -/
def res60 : AmortResult :=
  { total_interests := 0, total_principal := 100, total_payment := 100,
    table := [{ month := 1, payment := 60, principal := 60, interests := 0, balance := 40 },
              { month := 2, payment := 40, principal := 40, interests := 0, balance := 0 }],
    months := 2 }

/-- The concrete run `calculate_amortization_table(60, 0, 100, 1)` returns
normally with result `res60`. -/
theorem run60 : calculate_amortization_table 60 0 100 1 5 = some (.ok res60) := by
  rw [calculate_amortization_table, if_neg (by norm_num)]
  rw [show (5:ℕ) = 4+1 from rfl,
    amortLoop_continue _ _ _ _ (by norm_num) (by norm_num) (by norm_num)]
  norm_num [set_values, round2, round_eq]
  rw [show (4:ℕ) = 3+1 from rfl,
    amortLoop_final _ _ _ _ (by norm_num) (by norm_num) (by norm_num)]
  norm_num [set_values, round2, round_eq, res60]

/-- Witness for C1: the run `(60, 0, 100, 1)` returns normally and its
`total_principal` is within 0.01 of the loan amount 100. -/
theorem C1_witness :
    calculate_amortization_table 60 0 100 1 5 = some (.ok res60) ∧
    |res60.total_principal - 100| ≤ 1 / 100 :=
  ⟨run60, C1_total_principal_within_cent 60 0 100 1 5 res60 run60⟩

/-- Recording a row appends its rounded `Balance` entry. -/
theorem recordedBalances_set_values (t : List Row) (m : ℕ) (p i pr b : ℚ) :
    recordedBalances (set_values t m p i pr b) = recordedBalances t ++ [round2 b] := by
  simp [recordedBalances, set_values]

/-- Invariant of the schedule loop: if all recorded balances so far are at
least `round2` of the current balance and are pairwise non-increasing, any
normal exit leaves the recorded balances pairwise non-increasing ending in
an exact 0. -/
theorem amortLoop_balances (payment r : ℚ) :
    ∀ (fuel : ℕ) (st st' : AmortState), 0 < st.balance →
      (∀ b ∈ recordedBalances st.rows, round2 st.balance ≤ b) →
      List.Pairwise (· ≥ ·) (recordedBalances st.rows) →
      amortLoop payment r fuel st = some (.ok st') →
      List.Pairwise (· ≥ ·) (recordedBalances st'.rows) ∧
      (recordedBalances st'.rows).getLast? = some 0 := by
  intro fuel
  induction fuel with
  | zero =>
    intro st st' hbal _ _ heq
    simp [amortLoop, hbal] at heq
  | succ n ih =>
    intro st st' hbal hub hpw heq
    by_cases h1 : payment - r * st.balance ≤ 0
    · rw [amortLoop_tooLow _ _ _ _ hbal h1] at heq
      simp at heq
    · by_cases h2 : st.balance - (payment - r * st.balance) ≤ 0
      · rw [amortLoop_final _ _ _ _ hbal h1 h2] at heq
        simp only [Option.some.injEq, Except.ok.injEq] at heq
        rw [← heq]
        simp only [recordedBalances_set_values, round2_zero]
        constructor
        · rw [List.pairwise_append]
          refine ⟨hpw, List.pairwise_singleton _ _, ?_⟩
          intro a ha b hb
          simp only [List.mem_singleton] at hb
          subst hb
          have h0 : round2 0 ≤ round2 st.balance := round2_mono (le_of_lt hbal)
          rw [round2_zero] at h0
          exact le_trans h0 (hub a ha)
        · simp
      · rw [amortLoop_continue _ _ _ _ hbal h1 h2] at heq
        push_neg at h2
        have hble : st.balance - (payment - r * st.balance) ≤ st.balance := by
          push_neg at h1; linarith
        refine ih _ _ h2 ?_ ?_ heq
        · simp only [recordedBalances_set_values]
          intro b hb
          rw [List.mem_append] at hb
          rcases hb with hb | hb
          · exact le_trans (round2_mono hble) (hub b hb)
          · simp only [List.mem_singleton] at hb
            subst hb
            exact le_refl _
        · simp only [recordedBalances_set_values]
          rw [List.pairwise_append]
          refine ⟨hpw, List.pairwise_singleton _ _, ?_⟩
          intro a ha b hb
          simp only [List.mem_singleton] at hb
          subst hb
          exact le_trans (round2_mono hble) (hub a ha)

/-- The result of the concrete run
`calculate_amortization_table(0.001, 0, 0.004, 1)`: four months whose
recorded currency-rounded fields are all `0.00`. -/
def resTiny : AmortResult :=
  { total_interests := 0, total_principal := 0, total_payment := 0,
    table := [{ month := 1, payment := 0, principal := 0, interests := 0, balance := 0 },
              { month := 2, payment := 0, principal := 0, interests := 0, balance := 0 },
              { month := 3, payment := 0, principal := 0, interests := 0, balance := 0 },
              { month := 4, payment := 0, principal := 0, interests := 0, balance := 0 }],
    months := 4 }

/-- The concrete run `calculate_amortization_table(0.001, 0, 0.004, 1)`
returns normally with result `resTiny`. -/
theorem runTiny :
    calculate_amortization_table (1/1000) 0 (1/250) 1 10 = some (.ok resTiny) := by
  rw [calculate_amortization_table, if_neg (by norm_num)]
  rw [show (10:ℕ) = 9+1 from rfl,
    amortLoop_continue _ _ _ _ (by norm_num) (by norm_num) (by norm_num)]
  norm_num [set_values, round2, round_eq]
  rw [show (9:ℕ) = 8+1 from rfl,
    amortLoop_continue _ _ _ _ (by norm_num) (by norm_num) (by norm_num)]
  norm_num [set_values, round2, round_eq]
  rw [show (8:ℕ) = 7+1 from rfl,
    amortLoop_continue _ _ _ _ (by norm_num) (by norm_num) (by norm_num)]
  norm_num [set_values, round2, round_eq]
  rw [show (7:ℕ) = 6+1 from rfl,
    amortLoop_final _ _ _ _ (by norm_num) (by norm_num) (by norm_num)]
  norm_num [set_values, round2, round_eq, resTiny]

/-- C2 (counterexample): on the valid input
`(payment, rate, loan, term) = (0.001, 0, 0.004, 1)` the call returns
normally, but the recorded `Balance` column is `[0, 0, 0, 0]`, which is
not strictly decreasing from row to row. -/
theorem C2_counterexample :
    calculate_amortization_table (1/1000) 0 (1/250) 1 10 = some (.ok resTiny) ∧
    ¬ strictlyDecreasing (recordedBalances resTiny.table) :=
  ⟨runTiny, by simp [strictlyDecreasing, recordedBalances, resTiny]⟩

/-- C2 (amended): for every input on which `calculate_amortization_table`
returns normally, the recorded `Balance` column is (weakly) non-increasing
from row to row — consecutive recorded balances can be equal because the
column holds values rounded to 2 decimals — and the final row's recorded
balance is exactly 0. -/
theorem C2_balances_nonincreasing_final_zero (payment annual_rate loan_amount : ℚ)
    (term : ℤ) (fuel : ℕ) (res : AmortResult)
    (h : calculate_amortization_table payment annual_rate loan_amount term fuel =
      some (.ok res)) :
    List.Pairwise (· ≥ ·) (recordedBalances res.table) ∧
    (recordedBalances res.table).getLast? = some 0 := by
  obtain ⟨hv, st', hloop, hres⟩ := calculate_ok_elim _ _ _ _ _ _ h
  push_neg at hv
  have := amortLoop_balances payment (annual_rate / 12) fuel _ st' hv.2.2.1
    (by simp [recordedBalances]) (by simp [recordedBalances]) hloop
  rw [hres]
  exact this

/-- Witness for C2 (amended): the run `(60, 0, 100, 1)` returns normally
and its recorded balances `[40, 0]` are non-increasing and end in 0. -/
theorem C2_witness :
    calculate_amortization_table 60 0 100 1 5 = some (.ok res60) ∧
    List.Pairwise (· ≥ ·) (recordedBalances res60.table) ∧
    (recordedBalances res60.table).getLast? = some 0 :=
  ⟨run60, C2_balances_nonincreasing_final_zero 60 0 100 1 5 res60 run60⟩

/-- Invariant of the schedule loop: if every row recorded so far carries
the rounded nominal payment, then on a normal exit every non-final row
carries the rounded nominal payment, and the final row is a payoff row:
its payment is `round2` of (pre-final balance + interest due), its
principal is `round2` of that balance, and its recorded balance is 0. -/
theorem amortLoop_payments (payment r : ℚ) :
    ∀ (fuel : ℕ) (st st' : AmortState), 0 < st.balance →
      (∀ row ∈ st.rows, row.payment = round2 payment) →
      amortLoop payment r fuel st = some (.ok st') →
      (∀ row ∈ st'.rows.dropLast, row.payment = round2 payment) ∧
      ∃ b, 0 < b ∧ st'.rows.getLast? =
        some { month := st'.month, payment := round2 (b + r * b),
               principal := round2 b, interests := round2 (r * b), balance := 0 } := by
  intro fuel
  induction fuel with
  | zero =>
    intro st st' hbal _ heq
    simp [amortLoop, hbal] at heq
  | succ n ih =>
    intro st st' hbal hinv heq
    by_cases h1 : payment - r * st.balance ≤ 0
    · rw [amortLoop_tooLow _ _ _ _ hbal h1] at heq
      simp at heq
    · by_cases h2 : st.balance - (payment - r * st.balance) ≤ 0
      · rw [amortLoop_final _ _ _ _ hbal h1 h2] at heq
        simp only [Option.some.injEq, Except.ok.injEq] at heq
        rw [← heq]
        simp only [set_values]
        constructor
        · rw [List.dropLast_concat]
          exact hinv
        · refine ⟨st.balance, hbal, ?_⟩
          rw [List.getLast?_concat]
          simp [round2_zero]
      · rw [amortLoop_continue _ _ _ _ hbal h1 h2] at heq
        push_neg at h2
        refine ih _ _ h2 ?_ heq
        intro row hrow
        simp only [set_values, List.mem_append, List.mem_singleton] at hrow
        rcases hrow with hrow | hrow
        · exact hinv row hrow
        · rw [hrow]

/-- C3 (counterexample): on the valid input `(0.001, 0, 0.004, 1)` the
call returns normally with four rows, but the non-final rows record the
payment `0.00` (the nominal payment rounded to 2 decimals), not the
nominal input payment `0.001`. -/
theorem C3_counterexample :
    calculate_amortization_table (1/1000) 0 (1/250) 1 10 = some (.ok resTiny) ∧
    resTiny.table.dropLast.map Row.payment = [0, 0, 0] ∧ (0 : ℚ) ≠ 1/1000 :=
  ⟨runTiny, by simp [resTiny], by norm_num⟩

/-- C3 (amended): for every input on which `calculate_amortization_table`
returns normally, every row except the last records a payment equal to the
nominal input payment rounded to 2 decimals, and the last row is a payoff
row built from the pre-final balance `b > 0`: its recorded payment is
`round2 (b + interest_due)`, its recorded principal portion is `round2 b`,
its recorded interest is `round2 interest_due` (where
`interest_due = (annual_rate / 12) * b`), and its recorded balance is 0. -/
theorem C3_final_row_payoff (payment annual_rate loan_amount : ℚ)
    (term : ℤ) (fuel : ℕ) (res : AmortResult)
    (h : calculate_amortization_table payment annual_rate loan_amount term fuel =
      some (.ok res)) :
    (∀ row ∈ res.table.dropLast, row.payment = round2 payment) ∧
    ∃ b, 0 < b ∧ res.table.getLast? =
      some { month := res.months, payment := round2 (b + (annual_rate / 12) * b),
             principal := round2 b, interests := round2 ((annual_rate / 12) * b),
             balance := 0 } := by
  obtain ⟨hv, st', hloop, hres⟩ := calculate_ok_elim _ _ _ _ _ _ h
  push_neg at hv
  have := amortLoop_payments payment (annual_rate / 12) fuel _ st' hv.2.2.1
    (by simp) hloop
  rw [hres]
  exact this

/-- Witness for C3 (amended): the run `(60, 0, 100, 1)` returns normally,
its single non-final row records the payment `round2 60`, and its final
row is a payoff row for some positive pre-final balance. -/
theorem C3_witness :
    calculate_amortization_table 60 0 100 1 5 = some (.ok res60) ∧
    ((∀ row ∈ res60.table.dropLast, row.payment = round2 60) ∧
     ∃ b, 0 < b ∧ res60.table.getLast? =
       some { month := res60.months, payment := round2 (b + (0 / 12) * b),
              principal := round2 b, interests := round2 ((0 / 12) * b),
              balance := 0 }) :=
  ⟨run60, C3_final_row_payoff 60 0 100 1 5 res60 run60⟩

/-- C4 (counterexample): the validation error does not identify the
offending constraint or value — the calls with `payment = -1` and
`payment = -2` (different offending values) raise the identical error
with the fixed message
`"All input values must be positive and greater than zero."`. -/
theorem C4_counterexample :
    calculate_amortization_table (-1) 0 100 1 5 =
      some (.error (.invalidInput "All input values must be positive and greater than zero.")) ∧
    calculate_amortization_table (-2) 0 100 1 5 =
      some (.error (.invalidInput "All input values must be positive and greater than zero.")) ∧
    (-1 : ℚ) ≠ -2 :=
  ⟨by norm_num [calculate_amortization_table],
   by norm_num [calculate_amortization_table],
   by norm_num⟩

/-- C4 (amended): `calculate_amortization_table` fails with the
input-validation `ValueError` if and only if `payment ≤ 0`, or
`annual_rate < 0`, or `loan_amount ≤ 0`, or `term ≤ 0`; the failure is
decided before any computation (it does not depend on the loop fuel) and
produces no rows, but the error carries one fixed generic message rather
than identifying which constraint failed or the offending value. -/
theorem C4_invalid_iff (payment annual_rate loan_amount : ℚ) (term : ℤ) (fuel : ℕ) :
    calculate_amortization_table payment annual_rate loan_amount term fuel =
      some (.error (.invalidInput "All input values must be positive and greater than zero.")) ↔
    (payment ≤ 0 ∨ annual_rate < 0 ∨ loan_amount ≤ 0 ∨ term ≤ 0) := by
  constructor
  · intro h
    by_cases hv : payment ≤ 0 ∨ annual_rate < 0 ∨ loan_amount ≤ 0 ∨ term ≤ 0
    · exact hv
    · exfalso
      rw [calculate_amortization_table, if_neg hv] at h
      cases heq : amortLoop payment (annual_rate / 12) fuel
          { balance := loan_amount, month := 1, rows := [],
            total_interests := 0, total_principal := 0 } with
      | none => rw [heq] at h; simp at h
      | some e =>
        cases e with
        | error e =>
          rw [heq] at h
          simp only [Option.some.injEq, Except.error.injEq] at h
          rw [h] at heq
          exact amortLoop_no_invalidInput _ _ _ _ _ heq
        | ok st' => rw [heq] at h; simp at h
  · intro hv
    rw [calculate_amortization_table, if_pos hv]

/-- C5: on any iteration of the schedule loop whose state has a positive
balance and `principal_due = payment - interest_due ≤ 0`, the loop
immediately raises the payment-too-low `ValueError` carrying the amount
`1 + |principal_due|` rounded to 2 decimals (the `:.2f` format of the
source message), and no result rows are produced: the whole computation
is the error. -/
theorem C5_payment_too_low (payment r : ℚ) (fuel : ℕ) (st : AmortState)
    (h : 0 < st.balance) (h1 : payment - r * st.balance ≤ 0) :
    amortLoop payment r (fuel + 1) st =
      some (.error (.paymentTooLow (round2 (1 + |payment - r * st.balance|)))) := by
  rw [amortLoop_tooLow _ _ _ _ h h1]
  rw [abs_of_nonpos h1]
  ring_nf

/-- Witness for C5: from a state with balance 100000 and monthly rate
0.01, a payment of 100 does not cover the interest of 1000, and the loop
raises `paymentTooLow` with the rounded amount `1 + |100 - 1000|`. -/
theorem C5_witness :
    (0:ℚ) < 100000 ∧ (100:ℚ) - (1/100) * 100000 ≤ 0 ∧
    amortLoop 100 (1/100) 1 ⟨100000, 1, [], 0, 0⟩ =
      some (.error (.paymentTooLow (round2 (1 + |(100:ℚ) - (1/100) * 100000|)))) :=
  ⟨by norm_num, by norm_num,
   C5_payment_too_low 100 (1/100) 0 ⟨100000, 1, [], 0, 0⟩ (by norm_num) (by norm_num)⟩

/-- A row all of whose currency fields are 2-decimal values (fixed points
of `round2`), i.e. were rounded when recorded. -/
def rowRounded (row : Row) : Prop :=
  round2 row.payment = row.payment ∧ round2 row.principal = row.principal ∧
  round2 row.interests = row.interests ∧ round2 row.balance = row.balance

/-- Every row the loop records has all four currency fields rounded to
2 decimals at the moment of recording. -/
theorem amortLoop_rows_rounded (payment r : ℚ) :
    ∀ (fuel : ℕ) (st st' : AmortState),
      (∀ row ∈ st.rows, rowRounded row) →
      amortLoop payment r fuel st = some (.ok st') →
      ∀ row ∈ st'.rows, rowRounded row := by
  intro fuel
  induction fuel with
  | zero =>
    intro st st' hinv heq
    by_cases hbal : st.balance > 0
    · simp [amortLoop, hbal] at heq
    · rw [amortLoop_exit _ _ _ _ hbal] at heq
      simp only [Option.some.injEq, Except.ok.injEq] at heq
      rw [← heq]; exact hinv
  | succ n ih =>
    intro st st' hinv heq
    by_cases hbal : st.balance > 0
    · by_cases h1 : payment - r * st.balance ≤ 0
      · rw [amortLoop_tooLow _ _ _ _ hbal h1] at heq
        simp at heq
      · by_cases h2 : st.balance - (payment - r * st.balance) ≤ 0
        · rw [amortLoop_final _ _ _ _ hbal h1 h2] at heq
          simp only [Option.some.injEq, Except.ok.injEq] at heq
          rw [← heq]
          intro row hrow
          simp only [set_values, List.mem_append, List.mem_singleton] at hrow
          rcases hrow with hrow | hrow
          · exact hinv row hrow
          · rw [hrow]
            exact ⟨round2_idem _, round2_idem _, round2_idem _, round2_idem _⟩
        · rw [amortLoop_continue _ _ _ _ hbal h1 h2] at heq
          refine ih _ _ ?_ heq
          intro row hrow
          simp only [set_values, List.mem_append, List.mem_singleton] at hrow
          rcases hrow with hrow | hrow
          · exact hinv row hrow
          · rw [hrow]
            exact ⟨round2_idem _, round2_idem _, round2_idem _, round2_idem _⟩
    · rw [amortLoop_exit _ _ _ _ hbal] at heq
      simp only [Option.some.injEq, Except.ok.injEq] at heq
      rw [← heq]; exact hinv

/-- The result of the concrete run
`calculate_amortization_table(2, 0.012, 4, 1)` (monthly rate 0.001):
three rows whose unrounded interests 0.004, 0.002004 and 0.000006004 all
record as `0.00`, while the returned `total_interests` is the single
end rounding of their exact sum 0.006010004, i.e. `0.01`. -/
def resC6 : AmortResult :=
  { total_interests := 1/100, total_principal := 4, total_payment := 401/100,
    table := [{ month := 1, payment := 2, principal := 2, interests := 0, balance := 2 },
              { month := 2, payment := 2, principal := 2, interests := 0, balance := 1/100 },
              { month := 3, payment := 1/100, principal := 1/100, interests := 0, balance := 0 }],
    months := 3 }

/-- The concrete run `calculate_amortization_table(2, 0.012, 4, 1)`
returns normally with result `resC6`. -/
theorem runC6 : calculate_amortization_table 2 (3/250) 4 1 10 = some (.ok resC6) := by
  rw [calculate_amortization_table, if_neg (by norm_num)]
  rw [show (10:ℕ) = 9+1 from rfl,
    amortLoop_continue _ _ _ _ (by norm_num) (by norm_num) (by norm_num)]
  norm_num [set_values, round2, round_eq]
  rw [show (9:ℕ) = 8+1 from rfl,
    amortLoop_continue _ _ _ _ (by norm_num) (by norm_num) (by norm_num)]
  norm_num [set_values, round2, round_eq]
  rw [show (8:ℕ) = 7+1 from rfl,
    amortLoop_final _ _ _ _ (by norm_num) (by norm_num) (by norm_num)]
  norm_num [set_values, round2, round_eq, resC6]

/-- C6 (counterexample): on `(2, 0.012, 4, 1)` the returned
`total_interests` is `0.01`, but the sum of the per-step rounded interest
contributions (the recorded `Interests` column) is `0`: the totals are
not sums of rounded per-step contributions. -/
theorem C6_counterexample :
    calculate_amortization_table 2 (3/250) 4 1 10 = some (.ok resC6) ∧
    (resC6.table.map Row.interests).sum = 0 ∧
    resC6.total_interests = 1/100 ∧ (1/100 : ℚ) ≠ 0 :=
  ⟨runC6, by simp [resC6], rfl, by norm_num⟩

/-- C6 (amended): every currency field of every row is rounded to 2
decimals at the moment it is recorded into the row, but the running totals
accumulate the unrounded per-step contributions and are rounded once at
return — in particular the returned `total_principal` is the single
rounding `round2 loan_amount` of the exactly telescoped unrounded sum,
not a sum of rounded contributions. -/
theorem C6_rows_rounded_totals_deferred (payment annual_rate loan_amount : ℚ)
    (term : ℤ) (fuel : ℕ) (res : AmortResult)
    (h : calculate_amortization_table payment annual_rate loan_amount term fuel =
      some (.ok res)) :
    (∀ row ∈ res.table, rowRounded row) ∧
    res.total_principal = round2 loan_amount := by
  obtain ⟨hv, st', hloop, hres⟩ := calculate_ok_elim _ _ _ _ _ _ h
  push_neg at hv
  have hrows := amortLoop_rows_rounded payment (annual_rate / 12) fuel _ st'
    (by simp) hloop
  have htot := amortLoop_total_principal payment (annual_rate / 12) fuel _ st'
    hv.2.2.1 hloop
  simp only at htot
  rw [hres]
  exact ⟨hrows, by simp only [htot, zero_add]⟩

/-- Witness for C6 (amended): the run `(60, 0, 100, 1)` returns normally,
every recorded row field is a 2-decimal value, and the returned
`total_principal` is `round2 100`. -/
theorem C6_witness :
    calculate_amortization_table 60 0 100 1 5 = some (.ok res60) ∧
    ((∀ row ∈ res60.table, rowRounded row) ∧ res60.total_principal = round2 100) :=
  ⟨run60, C6_rows_rounded_totals_deferred 60 0 100 1 5 res60 run60⟩

/-- Fuel sufficiency for the schedule loop: if the per-month principal is
bounded below by `δ > 0` (and the monthly rate is non-negative, so the
principal portion only grows as the balance falls), then from any state
whose balance is at most `n * δ` the loop exits normally within `n + 1`
iterations. -/
theorem amortLoop_terminates (payment r : ℚ) (hr : 0 ≤ r) (δ : ℚ) (hδ : 0 < δ) :
    ∀ (n : ℕ) (st : AmortState), δ ≤ payment - r * st.balance → st.balance ≤ (n : ℚ) * δ →
      ∃ st', amortLoop payment r (n + 1) st = some (.ok st') := by
  intro n
  induction n with
  | zero =>
    intro st _ hb
    have hbal : ¬ st.balance > 0 := by push_neg; simpa using hb
    exact ⟨st, amortLoop_exit _ _ _ _ hbal⟩
  | succ n ih =>
    intro st hp hb
    by_cases hbal : st.balance > 0
    · have h1 : ¬ payment - r * st.balance ≤ 0 := by push_neg; linarith
      by_cases h2 : st.balance - (payment - r * st.balance) ≤ 0
      · exact ⟨_, amortLoop_final _ _ _ _ hbal h1 h2⟩
      · rw [amortLoop_continue _ _ _ _ hbal h1 h2]
        apply ih
        · simp only
          have hpr : 0 < payment - r * st.balance := by linarith
          nlinarith [mul_nonneg hr (le_of_lt hpr)]
        · simp only
          push_cast at hb
          linarith
    · exact ⟨st, amortLoop_exit _ _ _ _ hbal⟩

/-- C7: for every valid input with
`payment > (annual_rate / 12) * loan_amount`, the schedule loop
terminates: some finite fuel makes `calculate_amortization_table` return
normally (the balance falls by at least the first month's principal every
month, so it reaches zero in finitely many months). -/
theorem C7_terminates (payment annual_rate loan_amount : ℚ) (term : ℤ)
    (h1 : 0 < payment) (h2 : 0 ≤ annual_rate) (h3 : 0 < loan_amount) (h4 : 0 < term)
    (h5 : (annual_rate / 12) * loan_amount < payment) :
    ∃ fuel res, calculate_amortization_table payment annual_rate loan_amount term fuel =
      some (.ok res) := by
  set r := annual_rate / 12 with hrdef
  have hr : 0 ≤ r := by positivity
  set δ := payment - r * loan_amount with hδdef
  have hδ : 0 < δ := by simp only [hδdef]; linarith
  set n : ℕ := (⌈loan_amount / δ⌉).toNat with hndef
  have hn : loan_amount ≤ (n : ℚ) * δ := by
    have hc : loan_amount / δ ≤ ((⌈loan_amount / δ⌉ : ℤ) : ℚ) := Int.le_ceil _
    have ht : (⌈loan_amount / δ⌉ : ℤ) ≤ ((⌈loan_amount / δ⌉).toNat : ℤ) := Int.self_le_toNat _
    have ht' : ((⌈loan_amount / δ⌉ : ℤ) : ℚ) ≤ ((n : ℕ) : ℚ) := by
      rw [hndef]; exact_mod_cast ht
    have : loan_amount / δ ≤ (n : ℚ) := le_trans hc ht'
    calc loan_amount = loan_amount / δ * δ := by field_simp
      _ ≤ (n : ℚ) * δ := by exact mul_le_mul_of_nonneg_right this (le_of_lt hδ)
  have hv : ¬ (payment ≤ 0 ∨ annual_rate < 0 ∨ loan_amount ≤ 0 ∨ term ≤ 0) := by
    push_neg
    exact ⟨h1, h2, h3, h4⟩
  obtain ⟨st', hst'⟩ := amortLoop_terminates payment r hr δ hδ n
    { balance := loan_amount, month := 1, rows := [],
      total_interests := 0, total_principal := 0 }
    (by simp) hn
  refine ⟨n + 1,
    { total_interests := round2 st'.total_interests
      total_principal := round2 st'.total_principal
      total_payment := round2 (st'.total_interests + st'.total_principal)
      table := st'.rows
      months := st'.month }, ?_⟩
  rw [calculate_amortization_table, if_neg hv, hst']

/-- Witness for C7: the valid input `(60, 0, 100, 1)` satisfies
`payment > (rate / 12) * loan` and the call terminates normally for some
fuel. -/
theorem C7_witness :
    ((0:ℚ) < 60 ∧ (0:ℚ) ≤ 0 ∧ (0:ℚ) < 100 ∧ (0:ℤ) < 1 ∧ ((0:ℚ) / 12) * 100 < 60) ∧
    ∃ fuel res, calculate_amortization_table 60 0 100 1 fuel = some (.ok res) :=
  ⟨⟨by norm_num, le_refl 0, by norm_num, by norm_num, by norm_num⟩,
   C7_terminates 60 0 100 1 (by norm_num) (le_refl 0) (by norm_num) (by norm_num)
     (by norm_num)⟩

/-- C8: the `term` parameter only passes the positivity check and never
influences the computation: for any two positive terms the call produces
identical outcomes (same rows, totals and month count, or the identical
failure). -/
theorem C8_term_does_not_matter (payment annual_rate loan_amount : ℚ) (fuel : ℕ)
    (t1 t2 : ℤ) (h1 : 0 < t1) (h2 : 0 < t2) :
    calculate_amortization_table payment annual_rate loan_amount t1 fuel =
    calculate_amortization_table payment annual_rate loan_amount t2 fuel := by
  rw [calculate_amortization_table, calculate_amortization_table]
  by_cases hv : payment ≤ 0 ∨ annual_rate < 0 ∨ loan_amount ≤ 0
  · have hv1 : payment ≤ 0 ∨ annual_rate < 0 ∨ loan_amount ≤ 0 ∨ t1 ≤ 0 := by tauto
    have hv2 : payment ≤ 0 ∨ annual_rate < 0 ∨ loan_amount ≤ 0 ∨ t2 ≤ 0 := by tauto
    rw [if_pos hv1, if_pos hv2]
  · push_neg at hv
    have hv1 : ¬ (payment ≤ 0 ∨ annual_rate < 0 ∨ loan_amount ≤ 0 ∨ t1 ≤ 0) := by
      push_neg
      exact ⟨hv.1, hv.2.1, hv.2.2, h1⟩
    have hv2 : ¬ (payment ≤ 0 ∨ annual_rate < 0 ∨ loan_amount ≤ 0 ∨ t2 ≤ 0) := by
      push_neg
      exact ⟨hv.1, hv.2.1, hv.2.2, h2⟩
    rw [if_neg hv1, if_neg hv2]

/-- Witness for C8: terms 1 and 100 give the identical result on the run
`(60, 0, 100)`. -/
theorem C8_witness :
    (0:ℤ) < 1 ∧ (0:ℤ) < 100 ∧
    calculate_amortization_table 60 0 100 1 5 =
      calculate_amortization_table 60 0 100 100 5 :=
  ⟨by norm_num, by norm_num,
   C8_term_does_not_matter 60 0 100 5 1 100 (by norm_num) (by norm_num)⟩

/-- If the principal portion is positive on entry, it stays positive on
every later iteration (the balance falls, so the interest falls and the
principal portion grows), hence the loop never raises the payment-too-low
error from any reachable state. -/
theorem amortLoop_no_paymentTooLow (payment r : ℚ) (hr : 0 ≤ r) :
    ∀ (fuel : ℕ) (st : AmortState), 0 < payment - r * st.balance → ∀ a : ℚ,
      amortLoop payment r fuel st ≠ some (.error (.paymentTooLow a)) := by
  intro fuel
  induction fuel with
  | zero =>
    intro st _ a heq
    by_cases hbal : st.balance > 0
    · simp [amortLoop, hbal] at heq
    · rw [amortLoop_exit _ _ _ _ hbal] at heq
      simp at heq
  | succ n ih =>
    intro st hp a heq
    by_cases hbal : st.balance > 0
    · have h1 : ¬ payment - r * st.balance ≤ 0 := by push_neg; exact hp
      by_cases h2 : st.balance - (payment - r * st.balance) ≤ 0
      · rw [amortLoop_final _ _ _ _ hbal h1 h2] at heq
        simp at heq
      · rw [amortLoop_continue _ _ _ _ hbal h1 h2] at heq
        refine ih _ ?_ a heq
        simp only
        nlinarith [mul_nonneg hr (le_of_lt hp)]
    · rw [amortLoop_exit _ _ _ _ hbal] at heq
      simp at heq

/-- C9: if the first iteration's principal portion is positive
(`payment > (annual_rate / 12) * loan_amount`), then the call never fails
with the payment-too-low error — on any valid input the check can only
fire at month 1, because the balance (and with it the interest due)
decreases every month. -/
theorem C9_no_late_payment_error (payment annual_rate loan_amount : ℚ) (term : ℤ)
    (fuel : ℕ) (a : ℚ) (h5 : (annual_rate / 12) * loan_amount < payment) :
    calculate_amortization_table payment annual_rate loan_amount term fuel ≠
      some (.error (.paymentTooLow a)) := by
  intro h
  by_cases hv : payment ≤ 0 ∨ annual_rate < 0 ∨ loan_amount ≤ 0 ∨ term ≤ 0
  · simp [calculate_amortization_table, hv] at h
  · rw [calculate_amortization_table, if_neg hv] at h
    push_neg at hv
    have hr : (0:ℚ) ≤ annual_rate / 12 := by
      have := hv.2.1
      positivity
    cases heq : amortLoop payment (annual_rate / 12) fuel
        { balance := loan_amount, month := 1, rows := [],
          total_interests := 0, total_principal := 0 } with
    | none => rw [heq] at h; simp at h
    | some e =>
      cases e with
      | error e =>
        rw [heq] at h
        simp only [Option.some.injEq, Except.error.injEq] at h
        rw [h] at heq
        exact amortLoop_no_paymentTooLow payment (annual_rate / 12) hr fuel _
          (by simp only; linarith) a heq
      | ok st' => rw [heq] at h; simp at h

/-- Witness for C9: on `(60, 0, 100, 1)` the first month's principal is
positive and the call does not fail with `paymentTooLow`. -/
theorem C9_witness :
    ((0:ℚ) / 12) * 100 < 60 ∧
    calculate_amortization_table 60 0 100 1 5 ≠ some (.error (.paymentTooLow 901)) :=
  ⟨by norm_num, C9_no_late_payment_error 60 0 100 1 5 901 (by norm_num)⟩

/-- Invariant of the schedule loop: the month counter always exceeds the
number of recorded rows by one, and the recorded month indices are the
consecutive integers from 1; on a normal exit the counter equals the row
count (the final row does not advance it) and at least one row exists. -/
theorem amortLoop_months (payment r : ℚ) :
    ∀ (fuel : ℕ) (st st' : AmortState), 0 < st.balance →
      st.month = st.rows.length + 1 →
      st.rows.map Row.month = List.range' 1 st.rows.length →
      amortLoop payment r fuel st = some (.ok st') →
      st'.month = st'.rows.length ∧
      st'.rows.map Row.month = List.range' 1 st'.rows.length ∧
      st'.rows ≠ [] := by
  intro fuel
  induction fuel with
  | zero =>
    intro st st' hbal _ _ heq
    simp [amortLoop, hbal] at heq
  | succ n ih =>
    intro st st' hbal hm hmap heq
    by_cases h1 : payment - r * st.balance ≤ 0
    · rw [amortLoop_tooLow _ _ _ _ hbal h1] at heq
      simp at heq
    · by_cases h2 : st.balance - (payment - r * st.balance) ≤ 0
      · rw [amortLoop_final _ _ _ _ hbal h1 h2] at heq
        simp only [Option.some.injEq, Except.ok.injEq] at heq
        rw [← heq]
        simp only [set_values]
        refine ⟨?_, ?_, by simp⟩
        · simp [hm]
        · rw [List.map_append, hmap, List.length_append]
          simp only [List.map_cons, List.map_nil, List.length_cons, List.length_nil]
          rw [List.range'_concat]
          congr 1
          simp [hm]
          omega
      · rw [amortLoop_continue _ _ _ _ hbal h1 h2] at heq
        push_neg at h2
        refine ih _ _ h2 ?_ ?_ heq
        · simp [set_values, hm]
        · simp only [set_values]
          rw [List.map_append, hmap, List.length_append]
          simp only [List.map_cons, List.map_nil, List.length_cons, List.length_nil]
          rw [List.range'_concat]
          congr 1
          simp [hm]
          omega

/-- C10: on every normal return, the returned month count equals the
number of rows, the rows' `Month` indices are exactly the consecutive
integers 1, 2, …, count, and there is at least one row. -/
theorem C10_months_eq_rows (payment annual_rate loan_amount : ℚ) (term : ℤ) (fuel : ℕ)
    (res : AmortResult)
    (h : calculate_amortization_table payment annual_rate loan_amount term fuel =
      some (.ok res)) :
    res.months = res.table.length ∧
    res.table.map Row.month = List.range' 1 res.table.length ∧
    res.table ≠ [] := by
  obtain ⟨hv, st', hloop, hres⟩ := calculate_ok_elim _ _ _ _ _ _ h
  push_neg at hv
  have := amortLoop_months payment (annual_rate / 12) fuel _ st' hv.2.2.1
    (by simp) (by simp) hloop
  rw [hres]
  exact this

/-- Witness for C10: the run `(60, 0, 100, 1)` returns 2 months, 2 rows
with `Month` column `[1, 2]`, and a non-empty table. -/
theorem C10_witness :
    calculate_amortization_table 60 0 100 1 5 = some (.ok res60) ∧
    (res60.months = res60.table.length ∧
     res60.table.map Row.month = List.range' 1 res60.table.length ∧
     res60.table ≠ []) :=
  ⟨run60, C10_months_eq_rows 60 0 100 1 5 res60 run60⟩

end Sierra
